import Mathlib

/-!
# Verification of the Sokoban engine

Shallow embedding of the Sokoban board engine and session controller
(`sokoban2.py` for the model with push counter, `sokoban.py` for the
controller scoring), together with proofs of the specified properties.

Positions are integer pairs; the entity sets (`walls`, `boxes`, `goals`)
are finite sets of positions, mirroring the Python `set` representation.
Python integers are unbounded, so coordinates are `Int` and the counters
(which start at 0 and are only incremented) are `Nat`.

The Python constructor `SokobanModel.__init__` performs only
non-throwing operations (set insertion, `len`, `strip`, enumeration,
attribute assignment), so its embedding `SokobanModel.init` is a total
function.  The attribute `self.player` is assigned only when an agent
glyph is seen; reading it when it was never assigned raises
`AttributeError` in Python, which is modelled by an explicit error
channel (`Except PyError`) on the operations that read the attribute
(`move`, `symbol`).
-/

namespace Sokoban

/-- Display symbols, one per glyph of the `.xsb` format (source `Symbol` enum). -/
inductive Symbol : Type where
  | BOX            -- "$"
  | BOX_ON_GOAL    -- "*"
  | PLAYER         -- "@"
  | PLAYER_ON_GOAL -- "+"
  | GOAL           -- "."
  | WALL           -- "#"
  | FLOOR          -- "-"
deriving DecidableEq, Repr

/-- Outcomes of a move attempt (source `MoveResponse` enum). -/
inductive MoveResponse : Type where
  | INVALID_WALL
  | INVALID_BOX
  | VALID
deriving DecidableEq, Repr

/-- Python runtime errors that the embedded code can raise: reading the
`player` attribute when no agent glyph ever assigned it. -/
inductive PyError : Type where
  | attributeError
deriving DecidableEq, Repr

/-- A board position: an integer pair `(x, y)`. -/
abbrev Pos : Type := Int × Int

/-- The board state of `SokobanModel`: entity sets, optional player
position (absent when no agent glyph occurred), stored size `[w, h]`,
and the two counters. -/
structure SokobanModel : Type where
  walls : Finset Pos
  boxes : Finset Pos
  goals : Finset Pos
  player : Option Pos
  size : Nat × Nat
  move_count : Nat
  push_count : Nat
deriving DecidableEq

/-- The characters stripped by Python `str.strip()` for ASCII input:
space, tab, newline, vertical tab, form feed, carriage return. -/
def isPySpace (c : Char) : Bool :=
  c = ' ' || c = '\t' || c = '\n' || c = '\x0b' || c = '\x0c' || c = '\r'

/-- Python `str.strip()`: drop leading and trailing whitespace. -/
def pyStrip (l : List Char) : List Char :=
  ((l.dropWhile isPySpace).reverse.dropWhile isPySpace).reverse

/-- One step of the parse loop: the `match symbol` statement of
`SokobanModel.__init__`, classifying one glyph at position `pos`. -/
def addSymbol (m : SokobanModel) (pos : Pos) (c : Char) : SokobanModel :=
  if c = '$' then { m with boxes := insert pos m.boxes }
  else if c = '*' then { m with boxes := insert pos m.boxes, goals := insert pos m.goals }
  else if c = '@' then { m with player := some pos }
  else if c = '+' then { m with player := some pos, goals := insert pos m.goals }
  else if c = '.' then { m with goals := insert pos m.goals }
  else if c = '#' then { m with walls := insert pos m.walls }
  else m

/-- The inner parse loop: `for x, symbol in enumerate(row_str)`, with `x`
the index of the current glyph inside the stripped row. -/
def scanRow (m : SokobanModel) (y : Nat) (x : Nat) : List Char → SokobanModel
  | [] => m
  | c :: cs => scanRow (addSymbol m ((x : Int), (y : Int)) c) y (x + 1) cs

/-- The outer parse loop: `for y, row in enumerate(level_data)`, each row
stripped before scanning (rows are strings, so the `hasattr` check in the
source always takes the `strip` branch). -/
def scanRows (m : SokobanModel) (y : Nat) : List (List Char) → SokobanModel
  | [] => m
  | r :: rs => scanRows (scanRow m y 0 (pyStrip r)) (y + 1) rs

/-- `SokobanModel.__init__`: empty sets, counters 0, size from the
stripped first row and the row count, then the glyph scan.  The source
constructor contains no `raise` statement, so this is a total function. -/
def SokobanModel.init (level_data : List (List Char)) : SokobanModel :=
  let size : Nat × Nat :=
    match level_data with
    | [] => (0, 0)
    | r :: _ => ((pyStrip r).length, level_data.length)
  scanRows
    { walls := ∅, boxes := ∅, goals := ∅, player := none,
      size := size, move_count := 0, push_count := 0 } 0 level_data

/-- `SokobanModel.is_empty`: a cell is empty iff it is in neither `walls`
nor `boxes`.  No range check against `size` is performed. -/
def SokobanModel.is_empty (m : SokobanModel) (x y : Int) : Bool :=
  if ((x, y) : Pos) ∈ m.walls then false
  else if ((x, y) : Pos) ∈ m.boxes then false
  else true

/-- `SokobanModel.move`: reads `self.player` (raising `AttributeError`
when it was never assigned), resolves the step into a result, then
increments `move_count` iff the result is `VALID`, mirroring the source's
trailing `if result == MoveResponse.VALID` block. -/
def SokobanModel.move (m : SokobanModel) (dx dy : Int) :
    Except PyError (SokobanModel × MoveResponse) :=
  match m.player with
  | none => Except.error PyError.attributeError
  | some (x, y) =>
    let nx : Int := x + dx
    let ny : Int := y + dy
    let step : SokobanModel × MoveResponse :=
      if m.is_empty nx ny then
        ({ m with player := some (nx, ny) }, MoveResponse.VALID)
      else if ((nx, ny) : Pos) ∈ m.boxes then
        let nnx : Int := nx + dx
        let nny : Int := ny + dy
        if m.is_empty nnx nny then
          ({ m with boxes := insert ((nnx, nny) : Pos) (m.boxes.erase (nx, ny)),
                    player := some (nx, ny),
                    push_count := m.push_count + 1 }, MoveResponse.VALID)
        else (m, MoveResponse.INVALID_BOX)
      else (m, MoveResponse.INVALID_WALL)
    let final : SokobanModel :=
      if step.2 = MoveResponse.VALID then
        { step.1 with move_count := step.1.move_count + 1 }
      else step.1
    Except.ok (final, step.2)

/-- `SokobanModel.symbol`: display classification with goal membership
checked first.  The comparisons against `self.player` read the attribute,
raising `AttributeError` when it was never assigned (box-on-goal and
plain-box cells return before the attribute is read, as in the source). -/
def SokobanModel.symbol (m : SokobanModel) (x y : Int) :
    Except PyError Symbol :=
  let pos : Pos := (x, y)
  if pos ∈ m.goals then
    if pos ∈ m.boxes then Except.ok Symbol.BOX_ON_GOAL
    else
      match m.player with
      | none => Except.error PyError.attributeError
      | some p =>
        if pos = p then Except.ok Symbol.PLAYER_ON_GOAL
        else Except.ok Symbol.GOAL
  else if pos ∈ m.boxes then Except.ok Symbol.BOX
  else
    match m.player with
    | none => Except.error PyError.attributeError
    | some p =>
      if pos = p then Except.ok Symbol.PLAYER
      else if pos ∈ m.walls then Except.ok Symbol.WALL
      else Except.ok Symbol.FLOOR

/-- `SokobanModel.is_level_complete`: the loop returns `False` as soon as
a goal is uncovered, and otherwise returns `len(self.goals) > 0`. -/
def SokobanModel.is_level_complete (m : SokobanModel) : Bool :=
  decide (∀ g ∈ m.goals, g ∈ m.boxes) && decide (0 < m.goals.card)

/-- The glyph that the parser classifies for column `x` of row `y`:
index `x` inside the stripped row `y`, `none` when out of range. -/
def glyphAt (rows : List (List Char)) (x y : Nat) : Option Char :=
  match rows.get? y with
  | none => none
  | some r => (pyStrip r).get? x

/-- Whether a glyph assigns the `player` attribute. -/
def isAgentGlyph (c : Char) : Bool :=
  c = '@' || c = '+'

/-- Position of the last agent glyph of a single (already stripped) row,
scanning from column `x` of row `y`; later columns win. -/
def rowLastAgent (y x : Nat) : List Char → Option Pos
  | [] => none
  | c :: cs =>
    (rowLastAgent y (x + 1) cs).or
      (if isAgentGlyph c then some ((x : Int), (y : Int)) else none)

/-- Position of the last agent glyph of the level in row-major scan
order, the first row carrying index `y`; later rows win. -/
def lastAgent (y : Nat) : List (List Char) → Option Pos
  | [] => none
  | r :: rs => (lastAgent (y + 1) rs).or (rowLastAgent y 0 (pyStrip r))

/-- Whether the level text contains at least one agent glyph
(`'@'` or `'+'`) in its stripped rows. -/
def hasAgent (rows : List (List Char)) : Bool :=
  rows.any (fun r => (pyStrip r).any isAgentGlyph)

/-- Number of agent glyphs across the stripped rows of the level. -/
def agentCount (rows : List (List Char)) : Nat :=
  (rows.map (fun r => ((pyStrip r).filter isAgentGlyph).length)).sum

/-- The error the specification prescribes for malformed levels. -/
inductive MalformedLevelError : Type where
  | malformed
deriving DecidableEq, Repr

/-- Modelled from the spec: `loadLevel(rows) → Board | MalformedLevelError`,
raising when the agent count is not exactly one or the level has zero
rows; otherwise the parsed board.  This definition follows the
specification's words and is compared against the source constructor
`SokobanModel.init`, which has no error path. -/
def loadLevel_spec (rows : List (List Char)) :
    Except MalformedLevelError SokobanModel :=
  if agentCount rows ≠ 1 ∨ rows = [] then Except.error MalformedLevelError.malformed
  else Except.ok (SokobanModel.init rows)

/-- Trimming only trailing whitespace/line-terminators, the operation the
specification claims is applied to the first row for the width.  (The
source uses Python `strip()`, which also trims leading whitespace.) -/
def rstripOnly (l : List Char) : List Char :=
  (l.reverse.dropWhile isPySpace).reverse

/-- Membership in the parsed rectangle `[0, w) × [0, h)` of a stored
size.  Used only to state that movement legality ignores the rectangle. -/
def inRect (size : Nat × Nat) (q : Pos) : Prop :=
  0 ≤ q.1 ∧ q.1 < (size.1 : Int) ∧ 0 ≤ q.2 ∧ q.2 < (size.2 : Int)

instance (size : Nat × Nat) (q : Pos) : Decidable (inRect size q) := by
  unfold inRect
  exact inferInstance

/-- The scoring state of `SokobanController`: accumulated score, current
level index, and the number of available level files. -/
structure SokobanController : Type where
  score : Int
  current_level_number : Nat
  num_levels : Nat
deriving DecidableEq, Repr

/-- `SokobanController.load_next_level`, restricted to its scoring and
progression effect: add `max(10000 - move_count * 10, 100)` for the level
just completed (whose board reported `move_count` moves), advance the
level index, and report whether a next level exists. -/
def SokobanController.load_next_level (ctrl : SokobanController)
    (move_count : Nat) : SokobanController × Bool :=
  let level_score : Int := max (10000 - (move_count : Int) * 10) 100
  let ctrl2 : SokobanController :=
    { ctrl with score := ctrl.score + level_score,
                current_level_number := ctrl.current_level_number + 1 }
  (ctrl2, decide (ctrl2.current_level_number < ctrl.num_levels))

/-- The per-level score as a standalone function of the completed
board's move counter. -/
def level_score (move_count : Nat) : Int :=
  max (10000 - (move_count : Int) * 10) 100

/-- Total score of a session that completed a sequence of levels whose
final move counters are `counts`, starting from the score 0 set in
`SokobanController.__init__` and applying `load_next_level` once per
completed level. -/
def session_score (counts : List Nat) : Int :=
  counts.foldl (fun s c => (SokobanController.load_next_level ⟨s, 0, 0⟩ c).1.score) 0

/-- The board states reachable in a play of one level: the parse of any
level text containing at least one agent glyph, closed under successful
`move` calls in any direction. -/
inductive Reachable : SokobanModel → Prop where
  | init (rows : List (List Char)) (h : hasAgent rows = true) :
      Reachable (SokobanModel.init rows)
  | step (m m' : SokobanModel) (r : MoveResponse) (dx dy : Int)
      (hm : Reachable m) (hmove : m.move dx dy = Except.ok (m', r)) :
      Reachable m'

/-- The level of §8 Scenario 1: agent at (1,1), box at (2,1), goal at
(3,1), walls framing.  Used to instantiate proved theorems at a concrete
input. -/
def demoLevel : List (List Char) :=
  [['#', '#', '#', '#', '#'],
   ['#', '@', '$', '.', '#'],
   ['#', '#', '#', '#', '#']]

/-! ## Basic lemmas about `is_empty` and `move` -/

lemma is_empty_eq_true_iff (m : SokobanModel) (x y : Int) :
    m.is_empty x y = true ↔ ((x, y) : Pos) ∉ m.walls ∧ ((x, y) : Pos) ∉ m.boxes := by
  unfold SokobanModel.is_empty
  split_ifs with h1 h2 <;> simp_all

lemma move_of_player_none (m : SokobanModel) (dx dy : Int)
    (hp : m.player = none) :
    m.move dx dy = Except.error PyError.attributeError := by
  unfold SokobanModel.move
  rw [hp]

lemma move_step_to_empty (m : SokobanModel) (x y dx dy : Int)
    (hp : m.player = some (x, y))
    (he : m.is_empty (x + dx) (y + dy) = true) :
    m.move dx dy =
      Except.ok ({ m with player := some (x + dx, y + dy),
                          move_count := m.move_count + 1 }, MoveResponse.VALID) := by
  unfold SokobanModel.move
  rw [hp]
  simp [he]

lemma move_push_box (m : SokobanModel) (x y dx dy : Int)
    (hp : m.player = some (x, y))
    (hb : ((x + dx, y + dy) : Pos) ∈ m.boxes)
    (he : m.is_empty (x + dx + dx) (y + dy + dy) = true) :
    m.move dx dy =
      Except.ok ({ m with
          boxes := insert ((x + dx + dx, y + dy + dy) : Pos)
                     (m.boxes.erase (x + dx, y + dy)),
          player := some (x + dx, y + dy),
          move_count := m.move_count + 1,
          push_count := m.push_count + 1 }, MoveResponse.VALID) := by
  have hne : m.is_empty (x + dx) (y + dy) = false := by
    rw [Bool.eq_false_iff]
    intro hcon
    exact ((is_empty_eq_true_iff m _ _).mp hcon).2 hb
  unfold SokobanModel.move
  rw [hp]
  simp [hne, hb, he]

lemma move_blocked_box (m : SokobanModel) (x y dx dy : Int)
    (hp : m.player = some (x, y))
    (hb : ((x + dx, y + dy) : Pos) ∈ m.boxes)
    (he : m.is_empty (x + dx + dx) (y + dy + dy) = false) :
    m.move dx dy = Except.ok (m, MoveResponse.INVALID_BOX) := by
  have hne : m.is_empty (x + dx) (y + dy) = false := by
    rw [Bool.eq_false_iff]
    intro hcon
    exact ((is_empty_eq_true_iff m _ _).mp hcon).2 hb
  unfold SokobanModel.move
  rw [hp]
  simp [hne, hb, he]

lemma move_blocked_wall (m : SokobanModel) (x y dx dy : Int)
    (hp : m.player = some (x, y))
    (hw : ((x + dx, y + dy) : Pos) ∈ m.walls)
    (hb : ((x + dx, y + dy) : Pos) ∉ m.boxes) :
    m.move dx dy = Except.ok (m, MoveResponse.INVALID_WALL) := by
  have hne : m.is_empty (x + dx) (y + dy) = false := by
    rw [Bool.eq_false_iff]
    intro hcon
    exact ((is_empty_eq_true_iff m _ _).mp hcon).1 hw
  unfold SokobanModel.move
  rw [hp]
  simp [hne, hb]

/-- Every call on a state with an assigned player returns normally, and
by case analysis it lands in one of the three branch shapes. -/
lemma move_cases (m : SokobanModel) (x y dx dy : Int)
    (hp : m.player = some (x, y)) :
    m.move dx dy =
        Except.ok ({ m with player := some (x + dx, y + dy),
                            move_count := m.move_count + 1 }, MoveResponse.VALID) ∨
    (∃ bx by' : Int, m.move dx dy =
        Except.ok ({ m with
            boxes := insert ((bx, by') : Pos) (m.boxes.erase (x + dx, y + dy)),
            player := some (x + dx, y + dy),
            move_count := m.move_count + 1,
            push_count := m.push_count + 1 }, MoveResponse.VALID)) ∨
    m.move dx dy = Except.ok (m, MoveResponse.INVALID_BOX) ∨
    m.move dx dy = Except.ok (m, MoveResponse.INVALID_WALL) := by
  by_cases he : m.is_empty (x + dx) (y + dy) = true
  · exact Or.inl (move_step_to_empty m x y dx dy hp he)
  · have he' := Bool.eq_false_iff.mpr he
    by_cases hb : ((x + dx, y + dy) : Pos) ∈ m.boxes
    · by_cases he2 : m.is_empty (x + dx + dx) (y + dy + dy) = true
      · exact Or.inr (Or.inl ⟨x + dx + dx, y + dy + dy,
          move_push_box m x y dx dy hp hb he2⟩)
      · exact Or.inr (Or.inr (Or.inl
          (move_blocked_box m x y dx dy hp hb (Bool.eq_false_iff.mpr he2))))
    · have hw : ((x + dx, y + dy) : Pos) ∈ m.walls := by
        by_contra hcon
        exact he ((is_empty_eq_true_iff m _ _).mpr ⟨hcon, hb⟩)
      exact Or.inr (Or.inr (Or.inr (move_blocked_wall m x y dx dy hp hw hb)))

/-! ## Field lemmas for the parser step -/

lemma addSymbol_walls (m : SokobanModel) (pos : Pos) (c : Char) :
    (addSymbol m pos c).walls = if c = '#' then insert pos m.walls else m.walls := by
  unfold addSymbol
  split_ifs <;> simp_all

lemma addSymbol_boxes (m : SokobanModel) (pos : Pos) (c : Char) :
    (addSymbol m pos c).boxes =
      if c = '$' ∨ c = '*' then insert pos m.boxes else m.boxes := by
  unfold addSymbol
  split_ifs <;> simp_all

lemma addSymbol_goals (m : SokobanModel) (pos : Pos) (c : Char) :
    (addSymbol m pos c).goals =
      if c = '*' ∨ c = '+' ∨ c = '.' then insert pos m.goals else m.goals := by
  unfold addSymbol
  split_ifs <;> simp_all

lemma addSymbol_player (m : SokobanModel) (pos : Pos) (c : Char) :
    (addSymbol m pos c).player =
      if isAgentGlyph c then some pos else m.player := by
  unfold addSymbol isAgentGlyph
  split_ifs <;> simp_all

lemma addSymbol_size (m : SokobanModel) (pos : Pos) (c : Char) :
    (addSymbol m pos c).size = m.size := by
  unfold addSymbol
  split_ifs <;> rfl

lemma addSymbol_move_count (m : SokobanModel) (pos : Pos) (c : Char) :
    (addSymbol m pos c).move_count = m.move_count := by
  unfold addSymbol
  split_ifs <;> rfl

lemma addSymbol_push_count (m : SokobanModel) (pos : Pos) (c : Char) :
    (addSymbol m pos c).push_count = m.push_count := by
  unfold addSymbol
  split_ifs <;> rfl

/-! ## Parser characterization lemmas

The three entity sets of a parsed board are characterized uniformly: a
position is in the set produced by the scan iff some glyph satisfying
the corresponding predicate occurs at that position. -/

lemma scanRow_mem_field (f : SokobanModel → Finset Pos) (P : Char → Prop)
    [DecidablePred P]
    (hadd : ∀ m pos c, f (addSymbol m pos c) = if P c then insert pos (f m) else f m)
    (cs : List Char) :
    ∀ (m : SokobanModel) (y x : Nat) (p : Pos),
      p ∈ f (scanRow m y x cs) ↔
        p ∈ f m ∨ ∃ i c, cs.get? i = some c ∧ P c ∧
          p = (((x + i : Nat) : Int), (y : Int)) := by
  induction cs with
  | nil =>
    intro m y x p
    simp [scanRow]
  | cons c cs ih =>
    intro m y x p
    rw [scanRow, ih, hadd]
    constructor
    · rintro (hmem | ⟨i, c', hget, hP, hp⟩)
      · by_cases hc : P c
        · rw [if_pos hc] at hmem
          rcases Finset.mem_insert.mp hmem with h | h
          · refine Or.inr ⟨0, c, rfl, hc, ?_⟩
            simpa using h
          · exact Or.inl h
        · rw [if_neg hc] at hmem
          exact Or.inl hmem
      · refine Or.inr ⟨i + 1, c', by simpa using hget, hP, ?_⟩
        rw [hp]
        have hidx : x + 1 + i = x + (i + 1) := by omega
        rw [hidx]
    · rintro (hmem | ⟨i, c', hget, hP, hp⟩)
      · refine Or.inl ?_
        by_cases hc : P c
        · rw [if_pos hc]
          exact Finset.mem_insert_of_mem hmem
        · rw [if_neg hc]
          exact hmem
      · match i, hget with
        | 0, hget =>
          have hc : c = c' := by simpa using hget
          subst hc
          refine Or.inl ?_
          rw [if_pos hP]
          have : p = ((x : Int), (y : Int)) := by simpa using hp
          rw [this]
          exact Finset.mem_insert_self _ _
        | i + 1, hget =>
          refine Or.inr ⟨i, c', by simpa using hget, hP, ?_⟩
          rw [hp]
          have hidx : x + (i + 1) = x + 1 + i := by omega
          rw [hidx]

lemma scanRows_mem_field (f : SokobanModel → Finset Pos) (P : Char → Prop)
    [DecidablePred P]
    (hadd : ∀ m pos c, f (addSymbol m pos c) = if P c then insert pos (f m) else f m)
    (rs : List (List Char)) :
    ∀ (m : SokobanModel) (y : Nat) (p : Pos),
      p ∈ f (scanRows m y rs) ↔
        p ∈ f m ∨ ∃ j r x c, rs.get? j = some r ∧ (pyStrip r).get? x = some c ∧ P c ∧
          p = ((x : Int), ((y + j : Nat) : Int)) := by
  induction rs with
  | nil =>
    intro m y p
    simp [scanRows]
  | cons r rs ih =>
    intro m y p
    rw [scanRows, ih, scanRow_mem_field f P hadd]
    constructor
    · rintro ((hmem | ⟨i, c, hget, hP, hp⟩) | ⟨j, r', x, c, hget, hget2, hP, hp⟩)
      · exact Or.inl hmem
      · refine Or.inr ⟨0, r, i, c, rfl, hget, hP, ?_⟩
        simpa using hp
      · refine Or.inr ⟨j + 1, r', x, c, by simpa using hget, hget2, hP, ?_⟩
        rw [hp]
        have hidx : y + 1 + j = y + (j + 1) := by omega
        rw [hidx]
    · rintro (hmem | ⟨j, r', x, c, hget, hget2, hP, hp⟩)
      · exact Or.inl (Or.inl hmem)
      · match j, hget with
        | 0, hget =>
          have hr : r = r' := by simpa using hget
          subst hr
          refine Or.inl (Or.inr ⟨x, c, hget2, hP, ?_⟩)
          simpa using hp
        | j + 1, hget =>
          refine Or.inr ⟨j, r', x, c, by simpa using hget, hget2, hP, ?_⟩
          rw [hp]
          have hidx : y + (j + 1) = y + 1 + j := by omega
          rw [hidx]

lemma glyphAt_eq_some (rows : List (List Char)) (x y : Nat) (c : Char) :
    glyphAt rows x y = some c ↔
      ∃ r, rows.get? y = some r ∧ (pyStrip r).get? x = some c := by
  unfold glyphAt
  cases h : rows.get? y <;> simp

lemma init_walls_mem (rows : List (List Char)) (p : Pos) :
    p ∈ (SokobanModel.init rows).walls ↔
      ∃ x y : Nat, glyphAt rows x y = some '#' ∧ p = ((x : Int), (y : Int)) := by
  unfold SokobanModel.init
  rw [scanRows_mem_field (fun m => m.walls) (fun c => c = '#')
    (fun m pos c => addSymbol_walls m pos c) rows]
  simp only [Finset.not_mem_empty, false_or]
  constructor
  · rintro ⟨j, r, x, c, hget, hget2, hc, hp⟩
    subst hc
    exact ⟨x, j, (glyphAt_eq_some rows x j '#').mpr ⟨r, hget, hget2⟩, by simpa using hp⟩
  · rintro ⟨x, y, hg, hp⟩
    rcases (glyphAt_eq_some rows x y '#').mp hg with ⟨r, hget, hget2⟩
    exact ⟨y, r, x, '#', hget, hget2, rfl, by simpa using hp⟩

lemma init_boxes_mem (rows : List (List Char)) (p : Pos) :
    p ∈ (SokobanModel.init rows).boxes ↔
      ∃ x y : Nat, ∃ c, glyphAt rows x y = some c ∧ (c = '$' ∨ c = '*') ∧
        p = ((x : Int), (y : Int)) := by
  unfold SokobanModel.init
  rw [scanRows_mem_field (fun m => m.boxes) (fun c => c = '$' ∨ c = '*')
    (fun m pos c => addSymbol_boxes m pos c) rows]
  simp only [Finset.not_mem_empty, false_or]
  constructor
  · rintro ⟨j, r, x, c, hget, hget2, hc, hp⟩
    exact ⟨x, j, c, (glyphAt_eq_some rows x j c).mpr ⟨r, hget, hget2⟩, hc, by simpa using hp⟩
  · rintro ⟨x, y, c, hg, hc, hp⟩
    rcases (glyphAt_eq_some rows x y c).mp hg with ⟨r, hget, hget2⟩
    exact ⟨y, r, x, c, hget, hget2, hc, by simpa using hp⟩

lemma init_goals_mem (rows : List (List Char)) (p : Pos) :
    p ∈ (SokobanModel.init rows).goals ↔
      ∃ x y : Nat, ∃ c, glyphAt rows x y = some c ∧ (c = '*' ∨ c = '+' ∨ c = '.') ∧
        p = ((x : Int), (y : Int)) := by
  unfold SokobanModel.init
  rw [scanRows_mem_field (fun m => m.goals) (fun c => c = '*' ∨ c = '+' ∨ c = '.')
    (fun m pos c => addSymbol_goals m pos c) rows]
  simp only [Finset.not_mem_empty, false_or]
  constructor
  · rintro ⟨j, r, x, c, hget, hget2, hc, hp⟩
    exact ⟨x, j, c, (glyphAt_eq_some rows x j c).mpr ⟨r, hget, hget2⟩, hc, by simpa using hp⟩
  · rintro ⟨x, y, c, hg, hc, hp⟩
    rcases (glyphAt_eq_some rows x y c).mp hg with ⟨r, hget, hget2⟩
    exact ⟨y, r, x, c, hget, hget2, hc, by simpa using hp⟩

/-! ## Player assignment through the parse -/

lemma ite_some_none_or (P : Prop) [Decidable P] (q : Pos) (z : Option Pos) :
    (if P then some q else none).or z = if P then some q else z := by
  split_ifs <;> rfl

lemma scanRow_player (cs : List Char) :
    ∀ (m : SokobanModel) (y x : Nat),
      (scanRow m y x cs).player = (rowLastAgent y x cs).or m.player := by
  induction cs with
  | nil =>
    intro m y x
    simp [scanRow, rowLastAgent]
  | cons c cs ih =>
    intro m y x
    rw [scanRow, ih, rowLastAgent, addSymbol_player, Option.or_assoc,
      ite_some_none_or]

lemma scanRows_player (rs : List (List Char)) :
    ∀ (m : SokobanModel) (y : Nat),
      (scanRows m y rs).player = (lastAgent y rs).or m.player := by
  induction rs with
  | nil =>
    intro m y
    simp [scanRows, lastAgent]
  | cons r rs ih =>
    intro m y
    rw [scanRows, ih, lastAgent, scanRow_player, Option.or_assoc]

lemma init_player (rows : List (List Char)) :
    (SokobanModel.init rows).player = lastAgent 0 rows := by
  unfold SokobanModel.init
  rw [scanRows_player]
  exact Option.or_none

lemma rowLastAgent_some (cs : List Char) :
    ∀ (y x : Nat) (p : Pos), rowLastAgent y x cs = some p →
      ∃ i c, cs.get? i = some c ∧ isAgentGlyph c = true ∧
        p = (((x + i : Nat) : Int), (y : Int)) := by
  induction cs with
  | nil =>
    intro y x p h
    simp [rowLastAgent] at h
  | cons c cs ih =>
    intro y x p h
    rw [rowLastAgent] at h
    cases hrest : rowLastAgent y (x + 1) cs with
    | some q =>
      rw [hrest] at h
      have hq : q = p := by simpa [Option.or] using h
      subst hq
      rcases ih y (x + 1) q hrest with ⟨i, c', hget, hag, hp⟩
      refine ⟨i + 1, c', by simpa using hget, hag, ?_⟩
      rw [hp]
      have hidx : x + 1 + i = x + (i + 1) := by omega
      rw [hidx]
    | none =>
      rw [hrest] at h
      by_cases hc : isAgentGlyph c
      · rw [if_pos hc] at h
        have hp : ((x : Int), (y : Int)) = p := by simpa [Option.or] using h
        exact ⟨0, c, rfl, hc, by simpa using hp.symm⟩
      · rw [if_neg hc] at h
        simp [Option.or] at h

lemma lastAgent_some (rs : List (List Char)) :
    ∀ (y : Nat) (p : Pos), lastAgent y rs = some p →
      ∃ x j : Nat, ∃ c, glyphAt rs x j = some c ∧ isAgentGlyph c = true ∧
        p = ((x : Int), ((y + j : Nat) : Int)) := by
  induction rs with
  | nil =>
    intro y p h
    simp [lastAgent] at h
  | cons r rs ih =>
    intro y p h
    rw [lastAgent] at h
    cases hrest : lastAgent (y + 1) rs with
    | some q =>
      rw [hrest] at h
      have hq : q = p := by simpa [Option.or] using h
      subst hq
      rcases ih (y + 1) q hrest with ⟨x, j, c, hg, hag, hp⟩
      rcases (glyphAt_eq_some rs x j c).mp hg with ⟨r', hget, hget2⟩
      refine ⟨x, j + 1, c,
        (glyphAt_eq_some (r :: rs) x (j + 1) c).mpr ⟨r', by simpa using hget, hget2⟩,
        hag, ?_⟩
      rw [hp]
      have hidx : y + 1 + j = y + (j + 1) := by omega
      rw [hidx]
    | none =>
      rw [hrest] at h
      have h' : rowLastAgent y 0 (pyStrip r) = some p := by
        simpa [Option.or] using h
      rcases rowLastAgent_some (pyStrip r) y 0 p h' with ⟨i, c, hget, hag, hp⟩
      refine ⟨i, 0, c,
        (glyphAt_eq_some (r :: rs) i 0 c).mpr ⟨r, rfl, hget⟩, hag, ?_⟩
      simpa using hp

lemma rowLastAgent_eq_none (cs : List Char) :
    ∀ (y x : Nat), rowLastAgent y x cs = none ↔
      ∀ c ∈ cs, isAgentGlyph c = false := by
  induction cs with
  | nil =>
    intro y x
    simp [rowLastAgent]
  | cons c cs ih =>
    intro y x
    rw [rowLastAgent, Option.or_eq_none, ih]
    constructor
    · rintro ⟨h1, h2⟩ c' hc'
      rcases List.mem_cons.mp hc' with h | h
      · subst h
        by_contra hcon
        rw [if_pos (by simpa using hcon)] at h2
        exact Option.some_ne_none _ h2
      · exact h1 c' h
    · intro h
      refine ⟨fun c' hc' => h c' (List.mem_cons_of_mem _ hc'), ?_⟩
      rw [if_neg (by simpa using h c (List.mem_cons_self c cs))]

lemma lastAgent_eq_none (rs : List (List Char)) :
    ∀ (y : Nat), lastAgent y rs = none ↔
      ∀ r ∈ rs, ∀ c ∈ pyStrip r, isAgentGlyph c = false := by
  induction rs with
  | nil =>
    intro y
    simp [lastAgent]
  | cons r rs ih =>
    intro y
    rw [lastAgent, Option.or_eq_none, ih, rowLastAgent_eq_none]
    constructor
    · rintro ⟨h1, h2⟩ r' hr'
      rcases List.mem_cons.mp hr' with h | h
      · subst h
        exact h2
      · exact h1 r' h
    · intro h
      exact ⟨fun r' hr' => h r' (List.mem_cons_of_mem _ hr'),
        h r (List.mem_cons_self r rs)⟩

lemma hasAgent_eq_false (rows : List (List Char)) :
    hasAgent rows = false ↔
      ∀ r ∈ rows, ∀ c ∈ pyStrip r, isAgentGlyph c = false := by
  unfold hasAgent
  simp [List.any_eq_true]

lemma init_player_eq_none (rows : List (List Char)) :
    (SokobanModel.init rows).player = none ↔ hasAgent rows = false := by
  rw [init_player, lastAgent_eq_none, hasAgent_eq_false]

/-! ## Size and counters through the parse -/

lemma scanRow_size (cs : List Char) :
    ∀ (m : SokobanModel) (y x : Nat), (scanRow m y x cs).size = m.size := by
  induction cs with
  | nil => intro m y x; rfl
  | cons c cs ih =>
    intro m y x
    rw [scanRow, ih, addSymbol_size]

lemma scanRows_size (rs : List (List Char)) :
    ∀ (m : SokobanModel) (y : Nat), (scanRows m y rs).size = m.size := by
  induction rs with
  | nil => intro m y; rfl
  | cons r rs ih =>
    intro m y
    rw [scanRows, ih, scanRow_size]

lemma init_size (rows : List (List Char)) :
    (SokobanModel.init rows).size =
      match rows with
      | [] => (0, 0)
      | r :: _ => ((pyStrip r).length, rows.length) := by
  unfold SokobanModel.init
  rw [scanRows_size]

lemma scanRow_move_count (cs : List Char) :
    ∀ (m : SokobanModel) (y x : Nat), (scanRow m y x cs).move_count = m.move_count := by
  induction cs with
  | nil => intro m y x; rfl
  | cons c cs ih =>
    intro m y x
    rw [scanRow, ih, addSymbol_move_count]

lemma scanRows_move_count (rs : List (List Char)) :
    ∀ (m : SokobanModel) (y : Nat), (scanRows m y rs).move_count = m.move_count := by
  induction rs with
  | nil => intro m y; rfl
  | cons r rs ih =>
    intro m y
    rw [scanRows, ih, scanRow_move_count]

lemma scanRow_push_count (cs : List Char) :
    ∀ (m : SokobanModel) (y x : Nat), (scanRow m y x cs).push_count = m.push_count := by
  induction cs with
  | nil => intro m y x; rfl
  | cons c cs ih =>
    intro m y x
    rw [scanRow, ih, addSymbol_push_count]

lemma scanRows_push_count (rs : List (List Char)) :
    ∀ (m : SokobanModel) (y : Nat), (scanRows m y rs).push_count = m.push_count := by
  induction rs with
  | nil => intro m y; rfl
  | cons r rs ih =>
    intro m y
    rw [scanRows, ih, scanRow_push_count]

lemma init_move_count (rows : List (List Char)) :
    (SokobanModel.init rows).move_count = 0 := by
  unfold SokobanModel.init
  rw [scanRows_move_count]

lemma init_push_count (rows : List (List Char)) :
    (SokobanModel.init rows).push_count = 0 := by
  unfold SokobanModel.init
  rw [scanRows_push_count]

/-! ## Claims -/

/-- Claim C1: for every board state with an agent position and every unit
direction delta, a move into an empty target moves the agent there,
increments `move_count` by exactly 1, leaves `boxes`, `walls`, `goals`
and `push_count` unchanged and returns `VALID`; a move into a box whose
beyond cell is empty removes the box from `target`, adds it at `beyond`,
moves the agent to `target`, increments both counters by exactly 1 and
returns `VALID`. -/
theorem move_step_and_push_semantics (m : SokobanModel) (x y dx dy : Int)
    (hp : m.player = some (x, y))
    (hunit : (dx = 0 ∧ (dy = 1 ∨ dy = -1)) ∨ (dy = 0 ∧ (dx = 1 ∨ dx = -1))) :
    (((x + dx, y + dy) : Pos) ∉ m.walls → ((x + dx, y + dy) : Pos) ∉ m.boxes →
      m.move dx dy = Except.ok ({ m with player := some (x + dx, y + dy),
                                          move_count := m.move_count + 1 },
        MoveResponse.VALID)) ∧
    (((x + dx, y + dy) : Pos) ∈ m.boxes →
     ((x + dx + dx, y + dy + dy) : Pos) ∉ m.walls →
     ((x + dx + dx, y + dy + dy) : Pos) ∉ m.boxes →
      m.move dx dy = Except.ok ({ m with
                                  boxes := insert ((x + dx + dx, y + dy + dy) : Pos)
                                             (m.boxes.erase (x + dx, y + dy)),
                                  player := some (x + dx, y + dy),
                                  move_count := m.move_count + 1,
                                  push_count := m.push_count + 1 },
        MoveResponse.VALID)) := by
  constructor
  · intro h1 h2
    exact move_step_to_empty m x y dx dy hp ((is_empty_eq_true_iff m _ _).mpr ⟨h1, h2⟩)
  · intro hb h1 h2
    exact move_push_box m x y dx dy hp hb ((is_empty_eq_true_iff m _ _).mpr ⟨h1, h2⟩)

/-- Witness for C1: on the Scenario-1 level, moving right pushes the box
from (2,1) to the goal (3,1) with both counters incremented. -/
theorem move_step_and_push_semantics_witness :
    (SokobanModel.init demoLevel).move 1 0 =
      Except.ok ({ SokobanModel.init demoLevel with
                   boxes := insert ((3, 1) : Pos)
                              ((SokobanModel.init demoLevel).boxes.erase (2, 1)),
                   player := some (2, 1),
                   move_count := (SokobanModel.init demoLevel).move_count + 1,
                   push_count := (SokobanModel.init demoLevel).push_count + 1 },
        MoveResponse.VALID) := by
  have h := (move_step_and_push_semantics (SokobanModel.init demoLevel) 1 1 1 0
    (by decide) (by decide)).2 (by decide) (by decide) (by decide)
  norm_num at h
  exact h

/-- Claim C2: for a board state with an agent position and any delta,
`move` returns normally with one of the three `MoveResponse` outcomes; a
non-`VALID` outcome leaves the state byte-for-byte unchanged; and
emptiness is pure set membership with no range check, so a destination
outside the parsed rectangle that is in neither `walls` nor `boxes` is
entered exactly like any empty cell. -/
theorem move_total_and_failure_semantics (m : SokobanModel) (p : Pos) (dx dy : Int)
    (hp : m.player = some p) :
    (∃ m' r, m.move dx dy = Except.ok (m', r)) ∧
    (∀ (m' : SokobanModel) (r : MoveResponse), m.move dx dy = Except.ok (m', r) →
      r ≠ MoveResponse.VALID → m' = m) ∧
    (∀ qx qy : Int, ((qx, qy) : Pos) ∉ m.walls → ((qx, qy) : Pos) ∉ m.boxes →
      m.is_empty qx qy = true) ∧
    (((p.1 + dx, p.2 + dy) : Pos) ∉ m.walls → ((p.1 + dx, p.2 + dy) : Pos) ∉ m.boxes →
      ¬ inRect m.size (p.1 + dx, p.2 + dy) →
      m.move dx dy = Except.ok ({ m with player := some (p.1 + dx, p.2 + dy),
                                          move_count := m.move_count + 1 },
        MoveResponse.VALID)) := by
  obtain ⟨x, y⟩ := p
  refine ⟨?_, ?_, ?_, ?_⟩
  · rcases move_cases m x y dx dy hp with h | ⟨bx, by', h⟩ | h | h <;> exact ⟨_, _, h⟩
  · intro m' r heq hr
    rcases move_cases m x y dx dy hp with h | ⟨bx, by', h⟩ | h | h
    · have h2 := h.symm.trans heq
      simp only [Except.ok.injEq, Prod.mk.injEq] at h2
      exact absurd h2.2.symm hr
    · have h2 := h.symm.trans heq
      simp only [Except.ok.injEq, Prod.mk.injEq] at h2
      exact absurd h2.2.symm hr
    · have h2 := h.symm.trans heq
      simp only [Except.ok.injEq, Prod.mk.injEq] at h2
      exact h2.1.symm
    · have h2 := h.symm.trans heq
      simp only [Except.ok.injEq, Prod.mk.injEq] at h2
      exact h2.1.symm
  · intro qx qy h1 h2
    exact (is_empty_eq_true_iff m qx qy).mpr ⟨h1, h2⟩
  · intro h1 h2 _
    exact move_step_to_empty m x y dx dy hp ((is_empty_eq_true_iff m _ _).mpr ⟨h1, h2⟩)

/-- Witness for C2: on the one-cell level `"@"` the agent steps right to
(1,0), a position outside the 1×1 parsed rectangle. -/
theorem move_total_and_failure_semantics_witness :
    (SokobanModel.init [['@']]).move 1 0 =
      Except.ok ({ SokobanModel.init [['@']] with
                   player := some (1, 0),
                   move_count := (SokobanModel.init [['@']]).move_count + 1 },
        MoveResponse.VALID) := by
  have h := (move_total_and_failure_semantics (SokobanModel.init [['@']])
    ((0, 0) : Pos) 1 0 (by decide)).2.2.2 (by decide) (by decide) (by decide)
  norm_num at h
  exact h

/-- Claim C4: `is_level_complete` is true iff the goal set is non-empty
and every goal holds a box; with an empty goal set it is false regardless
of box placement. -/
theorem is_level_complete_iff (m : SokobanModel) :
    (m.is_level_complete = true ↔ m.goals ≠ ∅ ∧ m.goals ⊆ m.boxes) ∧
    (m.goals = ∅ → m.is_level_complete = false) := by
  constructor
  · unfold SokobanModel.is_level_complete
    rw [Bool.and_eq_true, decide_eq_true_iff, decide_eq_true_iff,
      Finset.card_pos, Finset.nonempty_iff_ne_empty]
    rw [Finset.subset_iff]
    tauto
  · intro h
    unfold SokobanModel.is_level_complete
    rw [h]
    simp

/-- Witness for C4: a goal-free board is not complete. -/
theorem is_level_complete_iff_witness :
    SokobanModel.is_level_complete ⟨∅, ∅, ∅, none, (0, 0), 0, 0⟩ = false :=
  (is_level_complete_iff ⟨∅, ∅, ∅, none, (0, 0), 0, 0⟩).2 rfl

/-- Claim C9: for a board state with an agent position, `symbol` resolves
with the priority order goal-with-box, goal-with-agent, goal, box, agent,
wall, floor. -/
theorem symbol_priority (m : SokobanModel) (a : Pos) (x y : Int)
    (hp : m.player = some a) :
    m.symbol x y = Except.ok (
      if ((x, y) : Pos) ∈ m.goals ∧ ((x, y) : Pos) ∈ m.boxes then Symbol.BOX_ON_GOAL
      else if ((x, y) : Pos) ∈ m.goals ∧ ((x, y) : Pos) = a then Symbol.PLAYER_ON_GOAL
      else if ((x, y) : Pos) ∈ m.goals then Symbol.GOAL
      else if ((x, y) : Pos) ∈ m.boxes then Symbol.BOX
      else if ((x, y) : Pos) = a then Symbol.PLAYER
      else if ((x, y) : Pos) ∈ m.walls then Symbol.WALL
      else Symbol.FLOOR) := by
  by_cases hg : ((x, y) : Pos) ∈ m.goals <;>
  by_cases hb : ((x, y) : Pos) ∈ m.boxes <;>
  by_cases ha : ((x, y) : Pos) = a <;>
  by_cases hw : ((x, y) : Pos) ∈ m.walls <;>
  first
  | (subst ha
     simp [SokobanModel.symbol, hp, hg, hb, hw])
  | simp [SokobanModel.symbol, hp, hg, hb, ha, hw]

/-- Witness for C9: on the Scenario-1 level the goal cell (3,1) holds
neither box nor agent and classifies as a plain goal. -/
theorem symbol_priority_witness :
    (SokobanModel.init demoLevel).symbol 3 1 = Except.ok Symbol.GOAL := by
  have h := symbol_priority (SokobanModel.init demoLevel) (1, 1) 3 1 (by decide)
  rw [h]
  rfl

/-! ## The occupancy invariant -/

lemma init_walls_boxes_disjoint (rows : List (List Char)) :
    (SokobanModel.init rows).walls ∩ (SokobanModel.init rows).boxes = ∅ := by
  rw [Finset.eq_empty_iff_forall_not_mem]
  intro p hp
  rw [Finset.mem_inter] at hp
  obtain ⟨hw, hb⟩ := hp
  rcases (init_walls_mem rows p).mp hw with ⟨x, y, hg, hpeq⟩
  rcases (init_boxes_mem rows p).mp hb with ⟨x', y', c, hg', hc, hpeq'⟩
  have h2 : (((x : Int), (y : Int)) : Pos) = ((x' : Int), (y' : Int)) :=
    hpeq.symm.trans hpeq'
  have hx : x = x' := by
    have h3 := h2
    rw [Prod.mk.injEq] at h3
    exact_mod_cast h3.1
  have hy : y = y' := by
    have h3 := h2
    rw [Prod.mk.injEq] at h3
    exact_mod_cast h3.2
  subst hx
  subst hy
  rw [hg] at hg'
  have hcc : '#' = c := by
    simpa using hg'
  subst hcc
  rcases hc with h | h <;> exact absurd h (by decide)

lemma init_agent_not_occupied (rows : List (List Char)) (p : Pos)
    (hp : (SokobanModel.init rows).player = some p) :
    p ∉ (SokobanModel.init rows).walls ∧ p ∉ (SokobanModel.init rows).boxes := by
  rw [init_player] at hp
  rcases lastAgent_some rows 0 p hp with ⟨x, j, c, hg, hag, hpeq⟩
  have hpeq2 : p = ((x : Int), (j : Int)) := by
    simpa using hpeq
  constructor
  · intro hw
    rcases (init_walls_mem rows p).mp hw with ⟨x', y', hg', hpeq'⟩
    have h2 : (((x : Int), (j : Int)) : Pos) = ((x' : Int), (y' : Int)) :=
      hpeq2.symm.trans hpeq'
    have hx : x = x' := by
      have h3 := h2
      rw [Prod.mk.injEq] at h3
      exact_mod_cast h3.1
    have hy : j = y' := by
      have h3 := h2
      rw [Prod.mk.injEq] at h3
      exact_mod_cast h3.2
    subst hx
    subst hy
    rw [hg] at hg'
    have hcc : c = '#' := by
      simpa using hg'
    subst hcc
    exact absurd hag (by decide)
  · intro hb
    rcases (init_boxes_mem rows p).mp hb with ⟨x', y', c', hg', hc', hpeq'⟩
    have h2 : (((x : Int), (j : Int)) : Pos) = ((x' : Int), (y' : Int)) :=
      hpeq2.symm.trans hpeq'
    have hx : x = x' := by
      have h3 := h2
      rw [Prod.mk.injEq] at h3
      exact_mod_cast h3.1
    have hy : j = y' := by
      have h3 := h2
      rw [Prod.mk.injEq] at h3
      exact_mod_cast h3.2
    subst hx
    subst hy
    rw [hg] at hg'
    have hcc : c = c' := by
      simpa using hg'
    subst hcc
    rcases hc' with h | h <;> (subst h; exact absurd hag (by decide))

lemma move_preserves_invariant (m m' : SokobanModel) (r : MoveResponse) (dx dy : Int)
    (hdisj : m.walls ∩ m.boxes = ∅)
    (hpl : ∀ p : Pos, m.player = some p → p ∉ m.walls ∧ p ∉ m.boxes)
    (hmove : m.move dx dy = Except.ok (m', r)) :
    m'.walls ∩ m'.boxes = ∅ ∧
    ∀ p : Pos, m'.player = some p → p ∉ m'.walls ∧ p ∉ m'.boxes := by
  cases hpp : m.player with
  | none =>
    rw [move_of_player_none m dx dy hpp] at hmove
    exact absurd hmove (by simp)
  | some q =>
    obtain ⟨x, y⟩ := q
    by_cases he : m.is_empty (x + dx) (y + dy) = true
    · rw [move_step_to_empty m x y dx dy hpp he] at hmove
      simp only [Except.ok.injEq, Prod.mk.injEq] at hmove
      obtain ⟨hm', _⟩ := hmove
      subst hm'
      obtain ⟨h1, h2⟩ := (is_empty_eq_true_iff m _ _).mp he
      refine ⟨hdisj, ?_⟩
      intro p hp2
      simp only [Option.some.injEq] at hp2
      subst hp2
      exact ⟨h1, h2⟩
    · by_cases hb : ((x + dx, y + dy) : Pos) ∈ m.boxes
      · by_cases he2 : m.is_empty (x + dx + dx) (y + dy + dy) = true
        · rw [move_push_box m x y dx dy hpp hb he2] at hmove
          simp only [Except.ok.injEq, Prod.mk.injEq] at hmove
          obtain ⟨hm', _⟩ := hmove
          subst hm'
          obtain ⟨hw2, hb2⟩ := (is_empty_eq_true_iff m _ _).mp he2
          have hdisj' := Finset.eq_empty_iff_forall_not_mem.mp hdisj
          constructor
          · rw [Finset.eq_empty_iff_forall_not_mem]
            intro p hp2
            rw [Finset.mem_inter, Finset.mem_insert] at hp2
            obtain ⟨hpw, hpb⟩ := hp2
            rcases hpb with h | h
            · subst h
              exact hw2 hpw
            · exact hdisj' p (Finset.mem_inter.mpr ⟨hpw, (Finset.mem_erase.mp h).2⟩)
          · intro p hp2
            simp only [Option.some.injEq] at hp2
            subst hp2
            constructor
            · intro hcon
              exact hdisj' _ (Finset.mem_inter.mpr ⟨hcon, hb⟩)
            · intro hcon
              rw [Finset.mem_insert] at hcon
              rcases hcon with h | h
              · rw [h] at hb
                exact hb2 hb
              · exact (Finset.mem_erase.mp h).1 rfl
        · rw [move_blocked_box m x y dx dy hpp hb (Bool.eq_false_iff.mpr he2)] at hmove
          simp only [Except.ok.injEq, Prod.mk.injEq] at hmove
          obtain ⟨hm', _⟩ := hmove
          subst hm'
          exact ⟨hdisj, hpl⟩
      · have hw : ((x + dx, y + dy) : Pos) ∈ m.walls := by
          by_contra hcon
          exact he ((is_empty_eq_true_iff m _ _).mpr ⟨hcon, hb⟩)
        rw [move_blocked_wall m x y dx dy hpp hw hb] at hmove
        simp only [Except.ok.injEq, Prod.mk.injEq] at hmove
        obtain ⟨hm', _⟩ := hmove
        subst hm'
        exact ⟨hdisj, hpl⟩

/-- Claim C3: in every reachable board state (constructed from any level
text with at least one agent glyph and closed under `move`), walls and
boxes are disjoint and the agent stands on neither a wall nor a box. -/
theorem reachable_occupancy_invariant (m : SokobanModel) (hm : Reachable m) :
    m.walls ∩ m.boxes = ∅ ∧
    ∀ p : Pos, m.player = some p → p ∉ m.walls ∧ p ∉ m.boxes := by
  induction hm with
  | init rows h =>
    exact ⟨init_walls_boxes_disjoint rows, fun p hp => init_agent_not_occupied rows p hp⟩
  | step m m' r dx dy hm hmove ih =>
    exact move_preserves_invariant m m' r dx dy ih.1 ih.2 hmove

/-- Witness for C3: the invariant holds for the parsed Scenario-1 level. -/
theorem reachable_occupancy_invariant_witness :
    (SokobanModel.init demoLevel).walls ∩ (SokobanModel.init demoLevel).boxes = ∅ :=
  (reachable_occupancy_invariant (SokobanModel.init demoLevel)
    (Reachable.init demoLevel (by decide))).1

/-! ## Counter lemmas -/

lemma move_counter_shapes (m m' : SokobanModel) (r : MoveResponse) (dx dy : Int)
    (hmove : m.move dx dy = Except.ok (m', r)) :
    (m'.move_count = m.move_count ∧ m'.push_count = m.push_count) ∨
    (m'.move_count = m.move_count + 1 ∧ m'.push_count = m.push_count) ∨
    (m'.move_count = m.move_count + 1 ∧ m'.push_count = m.push_count + 1) := by
  cases hpp : m.player with
  | none =>
    rw [move_of_player_none m dx dy hpp] at hmove
    exact absurd hmove (by simp)
  | some q =>
    obtain ⟨x, y⟩ := q
    rcases move_cases m x y dx dy hpp with h | ⟨bx, by', h⟩ | h | h <;>
    · have h2 := h.symm.trans hmove
      simp only [Except.ok.injEq, Prod.mk.injEq] at h2
      obtain ⟨hm', _⟩ := h2
      subst hm'
      simp

/-- Claim C7: in every reachable state `push_count ≤ move_count`; both
counters (which are natural numbers, hence non-negative) start at 0 at
construction, and no call to `move` ever decreases either counter. -/
theorem counters_monotone_and_bounded :
    (∀ m : SokobanModel, Reachable m → m.push_count ≤ m.move_count) ∧
    (∀ rows : List (List Char),
      (SokobanModel.init rows).move_count = 0 ∧
      (SokobanModel.init rows).push_count = 0) ∧
    (∀ (m m' : SokobanModel) (r : MoveResponse) (dx dy : Int),
      m.move dx dy = Except.ok (m', r) →
      m.move_count ≤ m'.move_count ∧ m.push_count ≤ m'.push_count) := by
  refine ⟨?_, fun rows => ⟨init_move_count rows, init_push_count rows⟩, ?_⟩
  · intro m hm
    induction hm with
    | init rows h =>
      rw [init_move_count rows, init_push_count rows]
    | step m m' r dx dy hm hmove ih =>
      rcases move_counter_shapes m m' r dx dy hmove with ⟨h1, h2⟩ | ⟨h1, h2⟩ | ⟨h1, h2⟩ <;>
        omega
  · intro m m' r dx dy hmove
    rcases move_counter_shapes m m' r dx dy hmove with ⟨h1, h2⟩ | ⟨h1, h2⟩ | ⟨h1, h2⟩ <;>
      omega

/-- Witness for C7: the counter bound at the freshly parsed Scenario-1
level, reached through the `Reachable.init` hypothesis. -/
theorem counters_monotone_and_bounded_witness :
    (SokobanModel.init demoLevel).push_count ≤ (SokobanModel.init demoLevel).move_count :=
  counters_monotone_and_bounded.1 (SokobanModel.init demoLevel)
    (Reachable.init demoLevel (by decide))

/-! ## Parser claims -/

/-- Counterexample to C6 as stated: for the single row `" @"` (a leading
space, no trailing whitespace) the claimed width — the first row's length
after trimming only trailing whitespace/line-terminators — is 2, but the
stored width is 1, and the agent glyph at column index 1 of the raw row
is recorded at (0, 0), not (1, 0), because Python `strip()` also removes
leading whitespace and the scan indexes the stripped row. -/
theorem parser_classification_counterexample :
    (rstripOnly [' ', '@']).length = 2 ∧
    (SokobanModel.init [[' ', '@']]).size.1 = 1 ∧
    (SokobanModel.init [[' ', '@']]).player = some (0, 0) ∧
    ¬ (SokobanModel.init [[' ', '@']]).player = some (1, 0) :=
  ⟨rfl, by decide, by decide, by decide⟩

/-- Claim C6 (amended): for every non-empty list of level rows, each row
is trimmed of leading AND trailing whitespace (Python `strip()`), the
glyph at column index `x` of the trimmed row `y` is recorded at (x, y)
— `'$'` into `boxes`; `'*'` into `boxes` and `goals`; `'.'` into
`goals`; `'#'` into `walls`; `'@'`/`'+'` assign the agent (`'+'` also
into `goals`), the assignment of the last such glyph surviving; floor
and unrecognized glyphs add nothing — the stored width is the trimmed
first row's length, and the height is the row count. -/
theorem parser_classification (rows : List (List Char)) (r0 : List Char)
    (rs : List (List Char)) (hrows : rows = r0 :: rs) :
    (SokobanModel.init rows).size = ((pyStrip r0).length, rows.length) ∧
    (∀ p : Pos, p ∈ (SokobanModel.init rows).boxes ↔
      ∃ x y : Nat, ∃ c, glyphAt rows x y = some c ∧ (c = '$' ∨ c = '*') ∧
        p = ((x : Int), (y : Int))) ∧
    (∀ p : Pos, p ∈ (SokobanModel.init rows).goals ↔
      ∃ x y : Nat, ∃ c, glyphAt rows x y = some c ∧ (c = '*' ∨ c = '+' ∨ c = '.') ∧
        p = ((x : Int), (y : Int))) ∧
    (∀ p : Pos, p ∈ (SokobanModel.init rows).walls ↔
      ∃ x y : Nat, glyphAt rows x y = some '#' ∧ p = ((x : Int), (y : Int))) ∧
    (SokobanModel.init rows).player = lastAgent 0 rows := by
  subst hrows
  refine ⟨?_, init_boxes_mem _, init_goals_mem _, init_walls_mem _, init_player _⟩
  rw [init_size]

/-- Witness for the amended C6 at the row `" @"`. -/
theorem parser_classification_witness :
    (SokobanModel.init [[' ', '@']]).size = ((pyStrip [' ', '@']).length, 1) :=
  (parser_classification [[' ', '@']] [' ', '@'] [] rfl).1

/-- Counterexample to C5 as stated: construction completes normally — no
error of any kind — on a level with zero agent glyphs, on a level with
two agent glyphs, and on the empty level, each time yielding a
well-defined board, whereas the specified `loadLevel` would reject all
three inputs. -/
theorem no_malformed_level_error_counterexample :
    agentCount [['#']] = 0 ∧
    SokobanModel.init [['#']] =
      { walls := {((0 : Int), (0 : Int))}, boxes := ∅, goals := ∅, player := none,
        size := (1, 1), move_count := 0, push_count := 0 } ∧
    agentCount [['@'], ['@']] = 2 ∧
    (SokobanModel.init [['@'], ['@']]).player = some (0, 1) ∧
    SokobanModel.init ([] : List (List Char)) =
      { walls := ∅, boxes := ∅, goals := ∅, player := none,
        size := (0, 0), move_count := 0, push_count := 0 } ∧
    loadLevel_spec [['#']] = Except.error MalformedLevelError.malformed :=
  ⟨rfl, by decide, rfl, by decide, rfl, rfl⟩

/-- Claim C5 (amended): board construction never raises — the source
constructor has no error path at all.  A level with zero agent glyphs
constructs successfully with the `player` attribute unassigned, and the
failure surfaces only later, as an `AttributeError` when `move` first
reads the attribute; a level with several agent glyphs silently keeps the
last one; the empty level yields an empty 0×0 board. -/
theorem construction_never_raises :
    (∀ rows : List (List Char),
      ((SokobanModel.init rows).player = none ↔ hasAgent rows = false)) ∧
    (∀ (rows : List (List Char)) (dx dy : Int), hasAgent rows = false →
      (SokobanModel.init rows).move dx dy = Except.error PyError.attributeError) := by
  constructor
  · exact init_player_eq_none
  · intro rows dx dy h
    exact move_of_player_none _ dx dy ((init_player_eq_none rows).mpr h)

/-- Witness for the amended C5: the agentless level `"#"` constructs, and
its first `move` raises the attribute error. -/
theorem construction_never_raises_witness :
    (SokobanModel.init [['#']]).move 0 1 = Except.error PyError.attributeError :=
  construction_never_raises.2 [['#']] 0 1 (by decide)

lemma move_eq_error_iff (m : SokobanModel) (dx dy : Int) :
    m.move dx dy = Except.error PyError.attributeError ↔ m.player = none := by
  cases hpp : m.player with
  | none => simp [move_of_player_none m dx dy hpp]
  | some q =>
    obtain ⟨x, y⟩ := q
    rcases move_cases m x y dx dy hpp with h | ⟨bx, by', h⟩ | h | h <;>
      simp [h, hpp]

/-- Claim C10: for every level text with at least one agent glyph the
construction succeeds (it is a total function) and the recorded agent is
the last agent glyph in row-major scan order, later placements silently
overwriting earlier ones while the goal contribution of every `'+'`
glyph remains in the goal set; `move` fails (with the attribute error)
exactly on boards built from agentless level texts. -/
theorem last_agent_wins :
    (∀ (rows : List (List Char)) (p : Pos), lastAgent 0 rows = some p →
      (SokobanModel.init rows).player = some p) ∧
    (∀ (rows : List (List Char)) (x y : Nat), glyphAt rows x y = some '+' →
      ((x : Int), (y : Int)) ∈ (SokobanModel.init rows).goals) ∧
    (∀ (rows : List (List Char)) (dx dy : Int),
      ((SokobanModel.init rows).move dx dy = Except.error PyError.attributeError ↔
        hasAgent rows = false)) := by
  refine ⟨?_, ?_, ?_⟩
  · intro rows p h
    rw [init_player]
    exact h
  · intro rows x y h
    exact (init_goals_mem rows _).mpr ⟨x, y, '+', h, by decide, rfl⟩
  · intro rows dx dy
    rw [move_eq_error_iff, init_player_eq_none]

/-- Witness for C10: in the row `"+@"` the later `'@'` wins and the goal
recorded by the earlier `'+'` remains. -/
theorem last_agent_wins_witness :
    (SokobanModel.init [['+', '@']]).player = some (1, 0) ∧
    ((0 : Int), (0 : Int)) ∈ (SokobanModel.init [['+', '@']]).goals :=
  ⟨last_agent_wins.1 [['+', '@']] (1, 0) (by decide),
   last_agent_wins.2.1 [['+', '@']] 0 0 (by decide)⟩

/-! ## Scoring -/

lemma foldl_session_score (counts : List Nat) :
    ∀ s : Int,
      counts.foldl (fun s c => (SokobanController.load_next_level ⟨s, 0, 0⟩ c).1.score) s
        = s + (counts.map level_score).sum := by
  induction counts with
  | nil =>
    intro s
    simp
  | cons c cs ih =>
    intro s
    rw [List.foldl_cons, ih, List.map_cons, List.sum_cons]
    have h : (SokobanController.load_next_level ⟨s, 0, 0⟩ c).1.score =
        s + level_score c := rfl
    rw [h]
    ring

/-- Claim C8: completing a level adds exactly
`max(10000 − move_count × 10, 100)` to the session's score — 9500 at 50
moves, the floor of 100 at 1000 moves — and a session's total score is
the sum of the per-level scores of all completed levels. -/
theorem level_scoring :
    (∀ (ctrl : SokobanController) (mc : Nat),
      (ctrl.load_next_level mc).1.score = ctrl.score + max (10000 - (mc : Int) * 10) 100) ∧
    (∀ ctrl : SokobanController, (ctrl.load_next_level 50).1.score - ctrl.score = 9500) ∧
    (∀ ctrl : SokobanController, (ctrl.load_next_level 1000).1.score - ctrl.score = 100) ∧
    (∀ counts : List Nat, session_score counts = (counts.map level_score).sum) := by
  refine ⟨fun ctrl mc => rfl, ?_, ?_, ?_⟩
  · intro ctrl
    have h : (ctrl.load_next_level 50).1.score = ctrl.score + level_score 50 := rfl
    rw [h]
    norm_num [level_score]
  · intro ctrl
    have h : (ctrl.load_next_level 1000).1.score = ctrl.score + level_score 1000 := rfl
    rw [h]
    norm_num [level_score]
  · intro counts
    rw [session_score, foldl_session_score]
    simp

end Sokoban
